import Mathlib

/-!
Verification development for the audio-vis repository's filtering core.

The filtering chain lives in `src/gen.py` (`butter_filter`, `apply_filters`,
`analyze_audio`) with a byte-identical duplicate of the filter functions in
`src/main.py`. The chain delegates coefficient design to `scipy.signal.butter`
and filtering to `scipy.signal.lfilter`; those two collaborators are not part
of the repository, so they are modelled here from the specification (doc
comments marked `Modelled from the spec:`). The numeric Butterworth polynomial
computation is floating-point and transcendental and never decides any
property below, so the development is parametric in it (`DesignKernel`);
every theorem holds for an arbitrary kernel.

Sample buffers are modelled as lists of rationals: the properties at stake
(guard structure, validation, length, purity) are independent of the scalar
field, and rationals keep every definition executable.
-/

namespace AudioVis

/-- A sample buffer: an ordered sequence of real-valued amplitude samples,
here with rational entries. -/
abbrev SampleBuffer := List ℚ

/-- Filter type tag, embedding the `btype` strings `"low"`, `"high"`,
`"band"` that the code passes to `butter_filter` (these three are the only
values occurring at any call site). -/
inductive BType
  | low
  | high
  | band
  deriving DecidableEq

/-- Cutoff argument to `butter_filter`: the Python code passes either a
single number (high or low pass) or a two-element list (band pass). -/
inductive CutoffArg
  | single (c : ℚ)
  | pair (lo hi : ℚ)
  deriving DecidableEq

/-- Filter coefficients: the feed-forward sequence `b` and the feedback
sequence `a` returned by the designer. -/
structure FilterCoefficients where
  b : List ℚ
  a : List ℚ
  deriving DecidableEq

/-- Errors raised below the chain. `invalidCutoff` models the `ValueError`
that `scipy.signal.butter` raises for cutoffs outside the valid digital range
(the spec's `InvalidCutoffError`); `typeMismatch` models the Python
`TypeError` that `butter_filter`'s normalization would raise when the shape
of the cutoff argument does not match `btype` (never reached from the chain's
call sites). -/
inductive FilterError
  | invalidCutoff
  | typeMismatch
  deriving DecidableEq

/-- The numeric Butterworth coefficient computation performed by
`scipy.signal.butter` after its input validation succeeds: a deterministic
function of the order, the filter type, and the normalized cutoff(s). Its
actual value is floating-point and transcendental and decides nothing proved
here, so the development is parametric in it. -/
abbrev DesignKernel := Nat → BType → CutoffArg → FilterCoefficients

/-- A concrete design kernel (identity filter coefficients), used to
instantiate kernel-parametric theorems on concrete inputs. -/
def trivKernel : DesignKernel := fun _ _ _ => ⟨[1], [1]⟩

/-- Modelled from the spec: the input validation of the digital Butterworth
designer `scipy.signal.butter` (spec §4.1 FilterDesigner), whose source is
not in the repository. It fails with `InvalidCutoffError` when a normalized
cutoff is ≤ 0 or ≥ 1 (cutoff outside (0, Nyquist)), or when the band's low
edge is ≥ its high edge; otherwise it returns the coefficients computed by
the numeric kernel `K` for the given order, type and normalized cutoff(s). -/
def scipy_butter (K : DesignKernel) (order : Nat) (normal_cutoff : CutoffArg)
    (btype : BType) : Except FilterError FilterCoefficients :=
  match normal_cutoff with
  | .single c =>
      if c ≤ 0 ∨ 1 ≤ c then .error .invalidCutoff
      else .ok (K order btype normal_cutoff)
  | .pair lo hi =>
      if lo ≤ 0 ∨ 1 ≤ lo ∨ hi ≤ 0 ∨ 1 ≤ hi then .error .invalidCutoff
      else if hi ≤ lo then .error .invalidCutoff
      else .ok (K order btype normal_cutoff)

/-- Dot product of a coefficient list against a (reversed) history list,
truncated to the shorter of the two: the weighted window of a direct-form
filter. -/
def convDot (c hist : List ℚ) : ℚ :=
  (List.zipWith (fun u v => u * v) c hist).sum

/-- Modelled from the spec: the causal direct-form recursive filter
`scipy.signal.lfilter` (spec §4.2 FilterApplier), whose source is not in the
repository. Processes the input start-to-end; `xhist` and `yhist` are the
already-consumed inputs and produced outputs, most recent first, so each
output sample is `(Σ b k * x (n-k) - Σ k ≥ 1, a k * y (n-k)) / a 0`. -/
def lfilterAux (b arest : List ℚ) (a0 : ℚ) :
    List ℚ → List ℚ → List ℚ → List ℚ
  | [], _, _ => []
  | x :: xs, xhist, yhist =>
      let yn := (convDot b (x :: xhist) - convDot arest yhist) / a0
      yn :: lfilterAux b arest a0 xs (x :: xhist) (yn :: yhist)

/-- Modelled from the spec: `scipy.signal.lfilter b a x` applies the causal
linear-recursive filter with feed-forward coefficients `b` and feedback
coefficients `a` once over `x` (single pass, no zero-phase correction). -/
def lfilter (b a : List ℚ) (x : List ℚ) : List ℚ :=
  lfilterAux b a.tail (a.headD 1) x [] []

namespace Gen

/-- `FILTER_LOWER_BOUND` from src/gen.py. -/
def FILTER_LOWER_BOUND : ℤ := 0

/-- `FILTER_UPPER_BOUND` from src/gen.py. -/
def FILTER_UPPER_BOUND : ℤ := 20000

/-- `butter_filter` from src/gen.py: computes `nyquist = 0.5 * fs`,
normalizes the cutoff(s) by `nyquist` (a scalar division when `btype` is
low/high, elementwise over the pair when band, a `TypeError` on a shape
mismatch), designs the Butterworth filter of the given order via
`scipy.signal.butter` with `analog=False`, and applies it to the data with
`scipy.signal.lfilter`. A raised exception propagates, modelled by the
`.error` branches of the matches. The Python default `order=5` is passed
explicitly by every caller of this embedding. -/
def butter_filter (K : DesignKernel) (data : SampleBuffer) (cutoff : CutoffArg)
    (fs : ℤ) (btype : BType) (order : Nat) :
    Except FilterError SampleBuffer :=
  let nyquist : ℚ := (1 / 2) * (fs : ℚ)
  let normRes : Except FilterError CutoffArg :=
    if btype = BType.low ∨ btype = BType.high then
      match cutoff with
      | .single c => .ok (CutoffArg.single (c / nyquist))
      | .pair _ _ => .error FilterError.typeMismatch
    else
      match cutoff with
      | .pair lo hi => .ok (CutoffArg.pair (lo / nyquist) (hi / nyquist))
      | .single _ => .error FilterError.typeMismatch
  match normRes with
  | .error e => .error e
  | .ok normal_cutoff =>
      match scipy_butter K order normal_cutoff btype with
      | .error e => .error e
      | .ok coeffs => .ok (lfilter coeffs.b coeffs.a data)

/-- `apply_filters` from src/gen.py: up to three conditional stages in fixed
order (high-pass, low-pass, band-pass), each filtering the output of the
previous one; a designer error interrupts the sequence and propagates,
modelled by the `.error` branches of the matches. -/
def apply_filters (K : DesignKernel) (y : SampleBuffer) (sr : ℤ)
    (highpass_cutoff lowpass_cutoff bandpass_low bandpass_high : ℤ) :
    Except FilterError SampleBuffer :=
  match
    (if highpass_cutoff > FILTER_LOWER_BOUND then
      butter_filter K y (CutoffArg.single (highpass_cutoff : ℚ)) sr BType.high 5
    else .ok y) with
  | .error e => .error e
  | .ok y =>
    match
      (if lowpass_cutoff > FILTER_LOWER_BOUND ∧ (lowpass_cutoff : ℚ) < (sr : ℚ) / 2 then
        butter_filter K y (CutoffArg.single (lowpass_cutoff : ℚ)) sr BType.low 5
      else .ok y) with
    | .error e => .error e
    | .ok y =>
      if bandpass_low > FILTER_LOWER_BOUND ∧ (bandpass_high : ℚ) < (sr : ℚ) / 2 then
        butter_filter K y (CutoffArg.pair (bandpass_low : ℚ) (bandpass_high : ℚ)) sr BType.band 5
      else .ok y

end Gen

namespace Main

/-- `FILTER_LOWER_BOUND` from src/main.py. -/
def FILTER_LOWER_BOUND : ℤ := 0

/-- `FILTER_UPPER_BOUND` from src/main.py. -/
def FILTER_UPPER_BOUND : ℤ := 20000

/-- `butter_filter` from src/main.py (textually identical to the copy in
src/gen.py). -/
def butter_filter (K : DesignKernel) (data : SampleBuffer) (cutoff : CutoffArg)
    (fs : ℤ) (btype : BType) (order : Nat) :
    Except FilterError SampleBuffer :=
  let nyquist : ℚ := (1 / 2) * (fs : ℚ)
  let normRes : Except FilterError CutoffArg :=
    if btype = BType.low ∨ btype = BType.high then
      match cutoff with
      | .single c => .ok (CutoffArg.single (c / nyquist))
      | .pair _ _ => .error FilterError.typeMismatch
    else
      match cutoff with
      | .pair lo hi => .ok (CutoffArg.pair (lo / nyquist) (hi / nyquist))
      | .single _ => .error FilterError.typeMismatch
  match normRes with
  | .error e => .error e
  | .ok normal_cutoff =>
      match scipy_butter K order normal_cutoff btype with
      | .error e => .error e
      | .ok coeffs => .ok (lfilter coeffs.b coeffs.a data)

/-- `apply_filters` from src/main.py (textually identical to the copy in
src/gen.py). -/
def apply_filters (K : DesignKernel) (y : SampleBuffer) (sr : ℤ)
    (highpass_cutoff lowpass_cutoff bandpass_low bandpass_high : ℤ) :
    Except FilterError SampleBuffer :=
  match
    (if highpass_cutoff > FILTER_LOWER_BOUND then
      butter_filter K y (CutoffArg.single (highpass_cutoff : ℚ)) sr BType.high 5
    else .ok y) with
  | .error e => .error e
  | .ok y =>
    match
      (if lowpass_cutoff > FILTER_LOWER_BOUND ∧ (lowpass_cutoff : ℚ) < (sr : ℚ) / 2 then
        butter_filter K y (CutoffArg.single (lowpass_cutoff : ℚ)) sr BType.low 5
      else .ok y) with
    | .error e => .error e
    | .ok y =>
      if bandpass_low > FILTER_LOWER_BOUND ∧ (bandpass_high : ℚ) < (sr : ℚ) / 2 then
        butter_filter K y (CutoffArg.pair (bandpass_low : ℚ) (bandpass_high : ℚ)) sr BType.band 5
      else .ok y

end Main

/-- Error kinds at pipeline level (spec §7). `decodeUnavailable` is the
spec's `DecodeUnavailableError`; it does not occur anywhere in the
repository's code, and is present here so that its absence from the
pipeline's behaviour can be stated. -/
inductive PipelineError
  | filter (e : FilterError)
  | decodeUnavailable
  deriving DecidableEq

/-- Pipeline front end of `analyze_audio` from src/gen.py, after the external
decoder (`librosa.load`) has produced the buffer `y` and sample rate `sr`:
the code performs no validation of `y` or `sr` whatsoever — it passes them
directly to `apply_filters` and proceeds to feature computation. A result
`.ok buf` means feature computation is reached with the filtered buffer
`buf`; a filter error propagates. -/
def analyze_frontend (K : DesignKernel) (y : SampleBuffer) (sr : ℤ)
    (highpass_cutoff lowpass_cutoff bandpass_low bandpass_high : ℤ) :
    Except PipelineError SampleBuffer :=
  match Gen.apply_filters K y sr highpass_cutoff lowpass_cutoff bandpass_low bandpass_high with
  | .ok y2 => .ok y2
  | .error e => .error (.filter e)

/-- Modelled from the spec: an explicit-heap view of the FilterApplier
(spec §4.2), for the frame and purity properties. Buffers live in a store;
`numpy`/`scipy.signal.lfilter` reads the input array and allocates a fresh
output array, so applying a filter appends a new buffer to the store and
returns its index, touching nothing else. -/
structure Store where
  bufs : List SampleBuffer
  deriving DecidableEq

/-- Modelled from the spec: apply the filter with coefficients `c` to the
buffer at index `i` of the store, allocating the output as a fresh buffer;
returns the new store and the index of the freshly produced buffer. -/
def applyInStore (st : Store) (i : Nat) (c : FilterCoefficients) :
    Store × Nat :=
  (⟨st.bufs ++ [lfilter c.b c.a (st.bufs.getD i [])]⟩, st.bufs.length)

/-- Stage descriptor for the chain, following the spec's words (§4.3): a
high-pass, low-pass or band-pass stage at the given cutoff(s) in Hz. -/
inductive Stage
  | highpass (cutoff : ℤ)
  | lowpass (cutoff : ℤ)
  | bandpass (lo hi : ℤ)
  deriving DecidableEq

/-- Following the spec's words (§4.3 and claim C4): the list of stages the
chain applies, in the fixed order high-pass, low-pass, band-pass; the
high-pass guard checks only the disabled sentinel, the low-pass guard also
checks Nyquist on its cutoff, and the band guard checks the low edge against
the sentinel and the high edge against Nyquist. -/
def specStages (sr : ℤ) (hp lp bl bh : ℤ) : List Stage :=
  (if 0 < hp then [Stage.highpass hp] else []) ++
    (if 0 < lp ∧ (lp : ℚ) < (sr : ℚ) / 2 then [Stage.lowpass lp] else []) ++
      (if 0 < bl ∧ (bh : ℚ) < (sr : ℚ) / 2 then [Stage.bandpass bl bh] else [])

/-- Design and apply a single stage, per the spec: each stage is a
Butterworth design of order 5 at the stage's cutoff(s) applied to the
incoming buffer. -/
def runStage (K : DesignKernel) (sr : ℤ) (y : SampleBuffer) :
    Stage → Except FilterError SampleBuffer
  | .highpass c => Gen.butter_filter K y (CutoffArg.single (c : ℚ)) sr BType.high 5
  | .lowpass c => Gen.butter_filter K y (CutoffArg.single (c : ℚ)) sr BType.low 5
  | .bandpass lo hi =>
      Gen.butter_filter K y (CutoffArg.pair (lo : ℚ) (hi : ℚ)) sr BType.band 5

/-- The chain as the spec words it: fold the guard-selected stage list over
the buffer, each stage strictly sequential on the previous stage's output. -/
def specChain (K : DesignKernel) (y : SampleBuffer) (sr : ℤ)
    (hp lp bl bh : ℤ) : Except FilterError SampleBuffer :=
  (specStages sr hp lp bl bh).foldlM (runStage K sr) y

/-- The first (high-pass) statement of `apply_filters` from src/gen.py in
isolation: filter when the guard holds, otherwise keep the buffer. -/
def hpStep (K : DesignKernel) (y : SampleBuffer) (sr hp : ℤ) :
    Except FilterError SampleBuffer :=
  if hp > Gen.FILTER_LOWER_BOUND then
    Gen.butter_filter K y (CutoffArg.single (hp : ℚ)) sr BType.high 5
  else .ok y

/-- The second (low-pass) statement of `apply_filters` from src/gen.py in
isolation. -/
def lpStep (K : DesignKernel) (y : SampleBuffer) (sr lp : ℤ) :
    Except FilterError SampleBuffer :=
  if lp > Gen.FILTER_LOWER_BOUND ∧ (lp : ℚ) < (sr : ℚ) / 2 then
    Gen.butter_filter K y (CutoffArg.single (lp : ℚ)) sr BType.low 5
  else .ok y

/-- The third (band-pass) statement of `apply_filters` from src/gen.py in
isolation. -/
def bandStep (K : DesignKernel) (y : SampleBuffer) (sr bl bh : ℤ) :
    Except FilterError SampleBuffer :=
  if bl > Gen.FILTER_LOWER_BOUND ∧ (bh : ℚ) < (sr : ℚ) / 2 then
    Gen.butter_filter K y (CutoffArg.pair (bl : ℚ) (bh : ℚ)) sr BType.band 5
  else .ok y

/-! Helper lemmas about the embedded definitions. -/

theorem LB_def : Gen.FILTER_LOWER_BOUND = 0 := rfl

theorem lfilter_length (b a x : List ℚ) : (lfilter b a x).length = x.length := by
  suffices h : ∀ (x xh yh : List ℚ),
      (lfilterAux b a.tail (a.headD 1) x xh yh).length = x.length by
    exact h x [] []
  intro x
  induction x with
  | nil => intro xh yh; rfl
  | cons hd tl ih => intro xh yh; simpa [lfilterAux] using ih _ _

theorem scipy_butter_single_invalid {K : DesignKernel} {order : Nat} {c : ℚ}
    {btype : BType} (h : c ≤ 0 ∨ 1 ≤ c) :
    scipy_butter K order (CutoffArg.single c) btype = .error .invalidCutoff := by
  simp [scipy_butter, h]

theorem scipy_butter_single_valid {K : DesignKernel} {order : Nat} {c : ℚ}
    {btype : BType} (h0 : 0 < c) (h1 : c < 1) :
    scipy_butter K order (CutoffArg.single c) btype =
      .ok (K order btype (CutoffArg.single c)) := by
  have hc : ¬ (c ≤ 0 ∨ 1 ≤ c) := by
    push_neg
    exact ⟨h0, h1⟩
  simp [scipy_butter, hc]

theorem scipy_butter_pair_invalid {K : DesignKernel} {order : Nat} {lo hi : ℚ}
    {btype : BType} (h : lo ≤ 0 ∨ 1 ≤ lo ∨ hi ≤ 0 ∨ 1 ≤ hi ∨ hi ≤ lo) :
    scipy_butter K order (CutoffArg.pair lo hi) btype = .error .invalidCutoff := by
  unfold scipy_butter
  rcases h with h | h | h | h | h
  · simp [h]
  · simp [h]
  · simp [h]
  · simp [h]
  · by_cases hr : lo ≤ 0 ∨ 1 ≤ lo ∨ hi ≤ 0 ∨ 1 ≤ hi
    · simp [hr]
    · simp [hr, h]

theorem butter_low_single_eq (K : DesignKernel) (data : SampleBuffer)
    (c : ℚ) (fs : ℤ) (order : Nat) :
    Gen.butter_filter K data (CutoffArg.single c) fs BType.low order =
      match scipy_butter K order (CutoffArg.single (c / ((1 / 2) * (fs : ℚ)))) BType.low with
      | .error e => .error e
      | .ok coeffs => .ok (lfilter coeffs.b coeffs.a data) := rfl

theorem butter_high_single_eq (K : DesignKernel) (data : SampleBuffer)
    (c : ℚ) (fs : ℤ) (order : Nat) :
    Gen.butter_filter K data (CutoffArg.single c) fs BType.high order =
      match scipy_butter K order (CutoffArg.single (c / ((1 / 2) * (fs : ℚ)))) BType.high with
      | .error e => .error e
      | .ok coeffs => .ok (lfilter coeffs.b coeffs.a data) := rfl

theorem butter_band_pair_eq (K : DesignKernel) (data : SampleBuffer)
    (lo hi : ℚ) (fs : ℤ) (order : Nat) :
    Gen.butter_filter K data (CutoffArg.pair lo hi) fs BType.band order =
      match scipy_butter K order
          (CutoffArg.pair (lo / ((1 / 2) * (fs : ℚ))) (hi / ((1 / 2) * (fs : ℚ)))) BType.band with
      | .error e => .error e
      | .ok coeffs => .ok (lfilter coeffs.b coeffs.a data) := rfl

theorem butter_filter_ok_length {K : DesignKernel} {data : SampleBuffer}
    {cutoff : CutoffArg} {fs : ℤ} {btype : BType} {order : Nat}
    {out : SampleBuffer}
    (h : Gen.butter_filter K data cutoff fs btype order = .ok out) :
    out.length = data.length := by
  cases btype with
  | low =>
    cases cutoff with
    | single c =>
      rw [butter_low_single_eq] at h
      cases hs : scipy_butter K order (CutoffArg.single (c / ((1 / 2) * (fs : ℚ)))) BType.low with
      | error e => rw [hs] at h; cases h
      | ok cf =>
        rw [hs] at h
        injection h with h
        rw [← h]
        exact lfilter_length _ _ _
    | pair lo hi => cases h
  | high =>
    cases cutoff with
    | single c =>
      rw [butter_high_single_eq] at h
      cases hs : scipy_butter K order (CutoffArg.single (c / ((1 / 2) * (fs : ℚ)))) BType.high with
      | error e => rw [hs] at h; cases h
      | ok cf =>
        rw [hs] at h
        injection h with h
        rw [← h]
        exact lfilter_length _ _ _
    | pair lo hi => cases h
  | band =>
    cases cutoff with
    | single c => cases h
    | pair lo hi =>
      rw [butter_band_pair_eq] at h
      cases hs : scipy_butter K order
          (CutoffArg.pair (lo / ((1 / 2) * (fs : ℚ))) (hi / ((1 / 2) * (fs : ℚ)))) BType.band with
      | error e => rw [hs] at h; cases h
      | ok cf =>
        rw [hs] at h
        injection h with h
        rw [← h]
        exact lfilter_length _ _ _

theorem hpStep_off {K : DesignKernel} {y : SampleBuffer} {sr hp : ℤ}
    (h : ¬ hp > Gen.FILTER_LOWER_BOUND) : hpStep K y sr hp = .ok y := by
  unfold hpStep
  rw [if_neg h]

theorem hpStep_on {K : DesignKernel} {y : SampleBuffer} {sr hp : ℤ}
    (h : hp > Gen.FILTER_LOWER_BOUND) :
    hpStep K y sr hp = Gen.butter_filter K y (CutoffArg.single (hp : ℚ)) sr BType.high 5 := by
  unfold hpStep
  rw [if_pos h]

theorem lpStep_off {K : DesignKernel} {y : SampleBuffer} {sr lp : ℤ}
    (h : ¬ (lp > Gen.FILTER_LOWER_BOUND ∧ (lp : ℚ) < (sr : ℚ) / 2)) :
    lpStep K y sr lp = .ok y := by
  unfold lpStep
  rw [if_neg h]

theorem lpStep_on {K : DesignKernel} {y : SampleBuffer} {sr lp : ℤ}
    (h : lp > Gen.FILTER_LOWER_BOUND ∧ (lp : ℚ) < (sr : ℚ) / 2) :
    lpStep K y sr lp = Gen.butter_filter K y (CutoffArg.single (lp : ℚ)) sr BType.low 5 := by
  unfold lpStep
  rw [if_pos h]

theorem bandStep_off {K : DesignKernel} {y : SampleBuffer} {sr bl bh : ℤ}
    (h : ¬ (bl > Gen.FILTER_LOWER_BOUND ∧ (bh : ℚ) < (sr : ℚ) / 2)) :
    bandStep K y sr bl bh = .ok y := by
  unfold bandStep
  rw [if_neg h]

theorem bandStep_on {K : DesignKernel} {y : SampleBuffer} {sr bl bh : ℤ}
    (h : bl > Gen.FILTER_LOWER_BOUND ∧ (bh : ℚ) < (sr : ℚ) / 2) :
    bandStep K y sr bl bh =
      Gen.butter_filter K y (CutoffArg.pair (bl : ℚ) (bh : ℚ)) sr BType.band 5 := by
  unfold bandStep
  rw [if_pos h]

theorem apply_filters_decomp (K : DesignKernel) (y : SampleBuffer)
    (sr hp lp bl bh : ℤ) :
    Gen.apply_filters K y sr hp lp bl bh =
      match hpStep K y sr hp with
      | .error e => .error e
      | .ok y1 =>
        match lpStep K y1 sr lp with
        | .error e => .error e
        | .ok y2 => bandStep K y2 sr bl bh := rfl

theorem apply_filters_hp_off {K : DesignKernel} {y : SampleBuffer}
    {sr hp lp bl bh : ℤ} (h1 : ¬ hp > Gen.FILTER_LOWER_BOUND) :
    Gen.apply_filters K y sr hp lp bl bh =
      match lpStep K y sr lp with
      | .error e => .error e
      | .ok y2 => bandStep K y2 sr bl bh := by
  rw [apply_filters_decomp, hpStep_off h1]

theorem apply_filters_hp_lp_off {K : DesignKernel} {y : SampleBuffer}
    {sr hp lp bl bh : ℤ} (h1 : ¬ hp > Gen.FILTER_LOWER_BOUND)
    (h2 : ¬ (lp > Gen.FILTER_LOWER_BOUND ∧ (lp : ℚ) < (sr : ℚ) / 2)) :
    Gen.apply_filters K y sr hp lp bl bh = bandStep K y sr bl bh := by
  rw [apply_filters_hp_off h1, lpStep_off h2]

theorem apply_filters_all_off {K : DesignKernel} {y : SampleBuffer}
    {sr hp lp bl bh : ℤ} (h1 : ¬ hp > Gen.FILTER_LOWER_BOUND)
    (h2 : ¬ (lp > Gen.FILTER_LOWER_BOUND ∧ (lp : ℚ) < (sr : ℚ) / 2))
    (h3 : ¬ (bl > Gen.FILTER_LOWER_BOUND ∧ (bh : ℚ) < (sr : ℚ) / 2)) :
    Gen.apply_filters K y sr hp lp bl bh = .ok y := by
  rw [apply_filters_hp_lp_off h1 h2, bandStep_off h3]

theorem apply_filters_band_only {K : DesignKernel} {y : SampleBuffer}
    {sr hp lp bl bh : ℤ} (h1 : ¬ hp > Gen.FILTER_LOWER_BOUND)
    (h2 : ¬ (lp > Gen.FILTER_LOWER_BOUND ∧ (lp : ℚ) < (sr : ℚ) / 2))
    (h3 : bl > Gen.FILTER_LOWER_BOUND ∧ (bh : ℚ) < (sr : ℚ) / 2) :
    Gen.apply_filters K y sr hp lp bl bh =
      Gen.butter_filter K y (CutoffArg.pair (bl : ℚ) (bh : ℚ)) sr BType.band 5 := by
  rw [apply_filters_hp_lp_off h1 h2, bandStep_on h3]

theorem foldlM_stage_cons (f : SampleBuffer → Stage → Except FilterError SampleBuffer)
    (y : SampleBuffer) (s : Stage) (l : List Stage) :
    List.foldlM f y (s :: l) =
      match f y s with
      | .error e => .error e
      | .ok y2 => List.foldlM f y2 l := by
  cases h : f y s <;> simp [List.foldlM, h, bind, Except.bind]

theorem foldlM_stage_singleton
    (f : SampleBuffer → Stage → Except FilterError SampleBuffer)
    (y : SampleBuffer) (s : Stage) : List.foldlM f y [s] = f y s := by
  rw [foldlM_stage_cons]
  cases f y s <;> rfl

theorem foldlM_stage_append
    (f : SampleBuffer → Stage → Except FilterError SampleBuffer)
    (l1 l2 : List Stage) (y : SampleBuffer) :
    List.foldlM f y (l1 ++ l2) =
      match List.foldlM f y l1 with
      | .error e => .error e
      | .ok y2 => List.foldlM f y2 l2 := by
  induction l1 generalizing y with
  | nil => rfl
  | cons s l ih =>
    rw [List.cons_append, foldlM_stage_cons, foldlM_stage_cons]
    cases f y s with
    | error e => rfl
    | ok y2 => exact ih y2

theorem foldlM_stage_if (c : Prop) [Decidable c]
    (f : SampleBuffer → Stage → Except FilterError SampleBuffer)
    (y : SampleBuffer) (s : Stage) :
    List.foldlM f y (if c then [s] else []) = (if c then f y s else .ok y) := by
  by_cases h : c
  · rw [if_pos h, if_pos h, foldlM_stage_singleton]
  · rw [if_neg h, if_neg h]; rfl

theorem specChain_decomp (K : DesignKernel) (y : SampleBuffer)
    (sr hp lp bl bh : ℤ) :
    specChain K y sr hp lp bl bh =
      match hpStep K y sr hp with
      | .error e => .error e
      | .ok y1 =>
        match lpStep K y1 sr lp with
        | .error e => .error e
        | .ok y2 => bandStep K y2 sr bl bh := by
  unfold specChain specStages
  simp only [foldlM_stage_append, foldlM_stage_if, runStage]
  unfold hpStep lpStep bandStep
  simp only [LB_def, gt_iff_lt]
  cases hq1 : (if 0 < hp then Gen.butter_filter K y (CutoffArg.single (hp : ℚ)) sr BType.high 5
      else Except.ok y) with
  | error e => rfl
  | ok y1 =>
    cases hq2 : (if 0 < lp ∧ (lp : ℚ) < (sr : ℚ) / 2 then
        Gen.butter_filter K y1 (CutoffArg.single (lp : ℚ)) sr BType.low 5
      else Except.ok y1) with
    | error e => rfl
    | ok y2 => rfl


theorem applyInStore_frame (st : Store) (i : Nat) (c : FilterCoefficients)
    {j : Nat} (hj : j < st.bufs.length) :
    (applyInStore st i c).1.bufs.getD j [] = st.bufs.getD j [] := by
  unfold applyInStore
  exact List.getD_append _ _ _ _ hj

theorem applyInStore_fresh (st : Store) (i : Nat) (c : FilterCoefficients) :
    (applyInStore st i c).2 = st.bufs.length := rfl

theorem applyInStore_len (st : Store) (i : Nat) (c : FilterCoefficients) :
    (applyInStore st i c).1.bufs.length = st.bufs.length + 1 := by
  simp [applyInStore]

theorem applyInStore_out (st : Store) (i : Nat) (c : FilterCoefficients) :
    (applyInStore st i c).1.bufs.getD (applyInStore st i c).2 [] =
      lfilter c.b c.a (st.bufs.getD i []) := by
  unfold applyInStore
  rw [List.getD_append_right _ _ _ _ (le_refl _)]
  simp

theorem hpStep_ok_length {K : DesignKernel} {y : SampleBuffer} {sr hp : ℤ}
    {y1 : SampleBuffer} (h : hpStep K y sr hp = .ok y1) : y1.length = y.length := by
  by_cases hg : hp > Gen.FILTER_LOWER_BOUND
  · rw [hpStep_on hg] at h
    exact butter_filter_ok_length h
  · rw [hpStep_off hg] at h
    injection h with h
    subst h
    rfl

theorem lpStep_ok_length {K : DesignKernel} {y : SampleBuffer} {sr lp : ℤ}
    {y1 : SampleBuffer} (h : lpStep K y sr lp = .ok y1) : y1.length = y.length := by
  by_cases hg : lp > Gen.FILTER_LOWER_BOUND ∧ (lp : ℚ) < (sr : ℚ) / 2
  · rw [lpStep_on hg] at h
    exact butter_filter_ok_length h
  · rw [lpStep_off hg] at h
    injection h with h
    subst h
    rfl

theorem bandStep_ok_length {K : DesignKernel} {y : SampleBuffer} {sr bl bh : ℤ}
    {y1 : SampleBuffer} (h : bandStep K y sr bl bh = .ok y1) : y1.length = y.length := by
  by_cases hg : bl > Gen.FILTER_LOWER_BOUND ∧ (bh : ℚ) < (sr : ℚ) / 2
  · rw [bandStep_on hg] at h
    exact butter_filter_ok_length h
  · rw [bandStep_off hg] at h
    injection h with h
    subst h
    rfl

theorem chain_match_ok {x : Except FilterError SampleBuffer}
    {f : SampleBuffer → Except FilterError SampleBuffer} {out : SampleBuffer}
    (h : (match x with | Except.error e => Except.error e | Except.ok v => f v) = .ok out) :
    ∃ v, x = .ok v ∧ f v = .ok out := by
  cases x with
  | error e => cases h
  | ok v => exact ⟨v, rfl, h⟩

theorem apply_filters_ok_length {K : DesignKernel} {y : SampleBuffer}
    {sr hp lp bl bh : ℤ} {out : SampleBuffer}
    (h : Gen.apply_filters K y sr hp lp bl bh = .ok out) :
    out.length = y.length := by
  rw [apply_filters_decomp] at h
  obtain ⟨y1, h1, h⟩ := chain_match_ok h
  obtain ⟨y2, h2, h⟩ := chain_match_ok h
  calc out.length = y2.length := bandStep_ok_length h
    _ = y1.length := lpStep_ok_length h2
    _ = y.length := hpStep_ok_length h1

theorem nyq_pos {fs : ℤ} (h : 0 < fs) : 0 < (1 / 2) * (fs : ℚ) := by
  have hq : (0 : ℚ) < (fs : ℚ) := by exact_mod_cast h
  linarith

theorem norm_one_le {fs : ℤ} {c : ℚ} (hfs : 0 < fs) (hc : (fs : ℚ) / 2 ≤ c) :
    1 ≤ c / ((1 / 2) * (fs : ℚ)) := by
  have hpos : 0 < (1 / 2) * (fs : ℚ) := nyq_pos hfs
  rw [one_le_div hpos]
  linarith

theorem norm_nonpos {fs : ℤ} {c : ℚ} (hfs : 0 < fs) (hc : c ≤ 0) :
    c / ((1 / 2) * (fs : ℚ)) ≤ 0 :=
  div_nonpos_iff.mpr (Or.inr ⟨hc, (nyq_pos hfs).le⟩)

theorem norm_mono {fs : ℤ} {a b : ℚ} (hfs : 0 < fs) (hab : a ≤ b) :
    a / ((1 / 2) * (fs : ℚ)) ≤ b / ((1 / 2) * (fs : ℚ)) := by
  have hpos : 0 < (1 / 2) * (fs : ℚ) := nyq_pos hfs
  exact (div_le_div_iff_of_pos_right hpos).mpr hab


/-! Claim theorems. -/

/-- A low-pass cutoff whose guard fails behaves exactly like the disabled
sentinel: the stage is skipped. -/
theorem apply_filters_lp_guard_off {K : DesignKernel} {y : SampleBuffer}
    {sr hp lp bl bh : ℤ}
    (h2 : ¬ (lp > Gen.FILTER_LOWER_BOUND ∧ (lp : ℚ) < (sr : ℚ) / 2)) :
    Gen.apply_filters K y sr hp lp bl bh = Gen.apply_filters K y sr hp (-1) bl bh := by
  rw [apply_filters_decomp, apply_filters_decomp]
  cases hq : hpStep K y sr hp with
  | error e => rfl
  | ok y1 =>
    show (match lpStep K y1 sr lp with
          | Except.error e => Except.error e
          | Except.ok y2 => bandStep K y2 sr bl bh) =
        (match lpStep K y1 sr (-1) with
          | Except.error e => Except.error e
          | Except.ok y2 => bandStep K y2 sr bl bh)
    rw [lpStep_off h2, lpStep_off (by rintro ⟨hx, -⟩; rw [LB_def] at hx; omega)]

/-- A band stage whose guard fails behaves exactly like a disabled band low
edge: the stage is skipped. -/
theorem apply_filters_band_guard_off {K : DesignKernel} {y : SampleBuffer}
    {sr hp lp bl bh : ℤ}
    (h3 : ¬ (bl > Gen.FILTER_LOWER_BOUND ∧ (bh : ℚ) < (sr : ℚ) / 2)) :
    Gen.apply_filters K y sr hp lp bl bh = Gen.apply_filters K y sr hp lp (-1) bh := by
  rw [apply_filters_decomp, apply_filters_decomp]
  cases hq : hpStep K y sr hp with
  | error e => rfl
  | ok y1 =>
    show (match lpStep K y1 sr lp with
          | Except.error e => Except.error e
          | Except.ok y2 => bandStep K y2 sr bl bh) =
        (match lpStep K y1 sr lp with
          | Except.error e => Except.error e
          | Except.ok y2 => bandStep K y2 sr (-1) bh)
    cases lpStep K y1 sr lp with
    | error e => rfl
    | ok y2 =>
      show bandStep K y2 sr bl bh = bandStep K y2 sr (-1) bh
      rw [bandStep_off h3, bandStep_off (by rintro ⟨hx, -⟩; rw [LB_def] at hx; omega)]

/-- C1: for every sample buffer and positive sample rate, running the filter
chain with all four cutoffs at the disabled sentinel -1 returns the buffer
exactly: no stage is applied and the output equals the input. -/
theorem claim_disabled_cutoff_passthrough (K : DesignKernel) (y : SampleBuffer)
    (sr : ℤ) (_hsr : 0 < sr) :
    Gen.apply_filters K y sr (-1) (-1) (-1) (-1) = .ok y :=
  apply_filters_all_off (by decide)
    (by rintro ⟨hx, -⟩; rw [LB_def] at hx; omega)
    (by rintro ⟨hx, -⟩; rw [LB_def] at hx; omega)

/-- Witness for C1 at a concrete buffer and sample rate. -/
theorem claim_disabled_cutoff_passthrough_witness :
    Gen.apply_filters trivKernel [1, 2] 22050 (-1) (-1) (-1) (-1) = .ok [1, 2] :=
  claim_disabled_cutoff_passthrough trivKernel [1, 2] 22050 (by decide)

/-- C2 counterexample: at sample rate 100 (Nyquist 50), a band stage with low
edge 100 ≥ Nyquist and high edge 40 < Nyquist is NOT skipped by the chain:
the guard holds, the designer is invoked and the chain fails with
`InvalidCutoffError`, contradicting the claim that the chain skips every
stage whose band edge is ≥ Nyquist. -/
theorem claim_nyquist_rejection_counterexample :
    Gen.apply_filters trivKernel [1] 100 (-1) (-1) 100 40 = .error .invalidCutoff := by
  have h3 : ((100 : ℤ) > Gen.FILTER_LOWER_BOUND) ∧ (((40 : ℤ) : ℚ) < ((100 : ℤ) : ℚ) / 2) := by
    constructor
    · decide
    · push_cast
      norm_num
  rw [apply_filters_band_only (by decide)
      (by rintro ⟨hx, -⟩; rw [LB_def] at hx; omega) h3,
    butter_band_pair_eq,
    scipy_butter_pair_invalid (Or.inr (Or.inl (by push_cast; norm_num)))]

/-- C2 (amended): for every cutoff ≥ sample_rate/2 the designer for low-pass
and band-pass fails with `InvalidCutoffError`; the chain skips the low-pass
stage when its cutoff is ≥ Nyquist and skips the band stage when the band
high edge is ≥ Nyquist (each behaves as if disabled); but the band guard
does not check the band low edge against Nyquist, so when the low edge is
≥ Nyquist, positive, and the high edge is below Nyquist, the designer is
reached and the chain fails with `InvalidCutoffError` rather than skipping. -/
theorem claim_nyquist_rejection_amended (K : DesignKernel) (fs : ℤ) (hfs : 0 < fs) :
    (∀ (data : SampleBuffer) (c : ℚ), (fs : ℚ) / 2 ≤ c →
      Gen.butter_filter K data (CutoffArg.single c) fs BType.low 5 = .error .invalidCutoff) ∧
    (∀ (data : SampleBuffer) (lo hi : ℚ), ((fs : ℚ) / 2 ≤ lo ∨ (fs : ℚ) / 2 ≤ hi) →
      Gen.butter_filter K data (CutoffArg.pair lo hi) fs BType.band 5 = .error .invalidCutoff) ∧
    (∀ (y : SampleBuffer) (hp lp bl bh : ℤ), (fs : ℚ) / 2 ≤ (lp : ℚ) →
      Gen.apply_filters K y fs hp lp bl bh = Gen.apply_filters K y fs hp (-1) bl bh) ∧
    (∀ (y : SampleBuffer) (hp lp bl bh : ℤ), (fs : ℚ) / 2 ≤ (bh : ℚ) →
      Gen.apply_filters K y fs hp lp bl bh = Gen.apply_filters K y fs hp lp (-1) bh) ∧
    (∀ (y : SampleBuffer) (bl bh : ℤ), 0 < bl → (fs : ℚ) / 2 ≤ (bl : ℚ) →
      (bh : ℚ) < (fs : ℚ) / 2 →
      Gen.apply_filters K y fs (-1) (-1) bl bh = .error .invalidCutoff) := by
  refine ⟨?_, ?_, ?_, ?_, ?_⟩
  · intro data c hc
    rw [butter_low_single_eq, scipy_butter_single_invalid (Or.inr (norm_one_le hfs hc))]
  · intro data lo hi h
    rw [butter_band_pair_eq]
    rcases h with h | h
    · rw [scipy_butter_pair_invalid (Or.inr (Or.inl (norm_one_le hfs h)))]
    · rw [scipy_butter_pair_invalid (Or.inr (Or.inr (Or.inr (Or.inl (norm_one_le hfs h)))))]
  · intro y hp lp bl bh hlp
    exact apply_filters_lp_guard_off (by rintro ⟨-, hlt⟩; linarith)
  · intro y hp lp bl bh hbh
    exact apply_filters_band_guard_off (by rintro ⟨-, hlt⟩; linarith)
  · intro y bl bh hbl hblq hbh
    have hguard : bl > Gen.FILTER_LOWER_BOUND ∧ (bh : ℚ) < (fs : ℚ) / 2 := by
      constructor
      · rw [LB_def]
        exact hbl
      · exact hbh
    rw [apply_filters_band_only (by decide)
        (by rintro ⟨hx, -⟩; rw [LB_def] at hx; omega) hguard,
      butter_band_pair_eq,
      scipy_butter_pair_invalid (Or.inr (Or.inl (norm_one_le hfs hblq)))]

/-- Witness for the amended C2 at sample rate 100. -/
theorem claim_nyquist_rejection_amended_witness :
    Gen.butter_filter trivKernel [1] (CutoffArg.single 50) 100 BType.low 5
        = .error .invalidCutoff ∧
    Gen.butter_filter trivKernel [1] (CutoffArg.pair 60 50) 100 BType.band 5
        = .error .invalidCutoff ∧
    Gen.apply_filters trivKernel [1] 100 (-1) 60 (-1) (-1)
        = Gen.apply_filters trivKernel [1] 100 (-1) (-1) (-1) (-1) ∧
    Gen.apply_filters trivKernel [1] 100 (-1) (-1) 3 60
        = Gen.apply_filters trivKernel [1] 100 (-1) (-1) (-1) 60 ∧
    Gen.apply_filters trivKernel [1] 100 (-1) (-1) 70 40 = .error .invalidCutoff := by
  have H := claim_nyquist_rejection_amended trivKernel 100 (by decide)
  exact ⟨H.1 [1] 50 (by push_cast; norm_num),
    H.2.1 [1] 60 50 (Or.inl (by push_cast; norm_num)),
    H.2.2.1 [1] (-1) 60 (-1) (-1) (by push_cast; norm_num),
    H.2.2.2.1 [1] (-1) (-1) 3 60 (by push_cast; norm_num),
    H.2.2.2.2 [1] 70 40 (by decide) (by push_cast; norm_num) (by push_cast; norm_num)⟩

/-- C3: with bandpass_low = 100 and bandpass_high = 50 and Nyquist above 50,
the band guard holds, the designer is invoked, and the chain fails with
`InvalidCutoffError`; moreover the designer rejects every band design whose
low edge is ≥ its high edge. -/
theorem claim_band_low_ge_high_rejected (K : DesignKernel) (y : SampleBuffer)
    (sr : ℤ) (hsr : 100 < sr) :
    Gen.apply_filters K y sr (-1) (-1) 100 50 = .error .invalidCutoff ∧
    (∀ (order : Nat) (lo hi : ℚ) (btype : BType), hi ≤ lo →
      scipy_butter K order (CutoffArg.pair lo hi) btype = .error .invalidCutoff) := by
  constructor
  · have hsr0 : (0 : ℤ) < sr := by omega
    have h3 : ((100 : ℤ) > Gen.FILTER_LOWER_BOUND) ∧ (((50 : ℤ) : ℚ) < (sr : ℚ) / 2) := by
      constructor
      · decide
      · have hq : (100 : ℚ) < (sr : ℚ) := by exact_mod_cast hsr
        push_cast
        linarith
    rw [apply_filters_band_only (by decide)
        (by rintro ⟨hx, -⟩; rw [LB_def] at hx; omega) h3,
      butter_band_pair_eq,
      scipy_butter_pair_invalid
        (Or.inr (Or.inr (Or.inr (Or.inr (norm_mono hsr0 (by push_cast; norm_num))))))]
  · intro order lo hi btype h
    exact scipy_butter_pair_invalid (Or.inr (Or.inr (Or.inr (Or.inr h))))

/-- Witness for C3 at sample rate 22050. -/
theorem claim_band_low_ge_high_rejected_witness :
    Gen.apply_filters trivKernel [1] 22050 (-1) (-1) 100 50 = .error .invalidCutoff ∧
    scipy_butter trivKernel 5 (CutoffArg.pair 3 2) BType.band = .error .invalidCutoff := by
  have H := claim_band_low_ge_high_rejected trivKernel [1] 22050 (by decide)
  exact ⟨H.1, H.2 5 3 2 BType.band (by norm_num)⟩

/-- C4: the chain applies at most three stages in the fixed order high-pass,
low-pass, band-pass, each stage filtering the previous output, with the
high-pass stage applied exactly when its cutoff is > 0 (no Nyquist check),
the low-pass stage exactly when 0 < cutoff < sample_rate/2, and the band
stage exactly when bandpass_low > 0 and bandpass_high < sample_rate/2: the
embedded `apply_filters` coincides with the stage-list chain `specChain`
written from the claim. -/
theorem claim_chain_stage_structure (K : DesignKernel) (y : SampleBuffer)
    (sr hp lp bl bh : ℤ) :
    Gen.apply_filters K y sr hp lp bl bh = specChain K y sr hp lp bl bh := by
  rw [apply_filters_decomp, specChain_decomp]

/-- C5: whenever a filter stage design succeeds, applying the filter yields
an output buffer of exactly the input length, both for a single
`butter_filter` stage and after the whole chain. -/
theorem claim_length_preservation :
    (∀ (K : DesignKernel) (data : SampleBuffer) (cutoff : CutoffArg) (fs : ℤ)
        (btype : BType) (order : Nat) (out : SampleBuffer),
      Gen.butter_filter K data cutoff fs btype order = .ok out →
      out.length = data.length) ∧
    (∀ (K : DesignKernel) (y : SampleBuffer) (sr hp lp bl bh : ℤ) (out : SampleBuffer),
      Gen.apply_filters K y sr hp lp bl bh = .ok out → out.length = y.length) :=
  ⟨fun _ _ _ _ _ _ _ h => butter_filter_ok_length h,
   fun _ _ _ _ _ _ _ _ h => apply_filters_ok_length h⟩

/-- Witness for C5 on concrete buffers. -/
theorem claim_length_preservation_witness :
    (lfilter [1] [1] [(1 : ℚ)]).length = [(1 : ℚ)].length ∧
    ([(1 : ℚ), 2] : SampleBuffer).length = ([(1 : ℚ), 2] : SampleBuffer).length := by
  have hb : Gen.butter_filter trivKernel [(1 : ℚ)] (CutoffArg.single 5) 100 BType.low 5
      = .ok (lfilter [1] [1] [(1 : ℚ)]) := by
    rw [butter_low_single_eq,
      scipy_butter_single_valid (by push_cast; norm_num) (by push_cast; norm_num)]
    rfl
  have hc : Gen.apply_filters trivKernel [(1 : ℚ), 2] 10 (-1) (-1) (-1) (-1)
      = .ok [(1 : ℚ), 2] :=
    apply_filters_all_off (by decide)
      (by rintro ⟨hx, -⟩; rw [LB_def] at hx; omega)
      (by rintro ⟨hx, -⟩; rw [LB_def] at hx; omega)
  exact ⟨claim_length_preservation.1 trivKernel [(1 : ℚ)] (CutoffArg.single 5) 100
      BType.low 5 _ hb,
    claim_length_preservation.2 trivKernel [(1 : ℚ), 2] 10 (-1) (-1) (-1) (-1) _ hc⟩

/-- C6: filter design and application are deterministic pure functions - in
the explicit-heap model, applying the same coefficients to the same
(unmutated) buffer twice allocates two distinct fresh buffers with identical
contents; the embedded design and apply functions are Lean functions, hence
deterministic, and no call touches any shared state. -/
theorem claim_filter_determinism (st : Store) (i : Nat) (c : FilterCoefficients)
    (h : i < st.bufs.length) :
    (applyInStore st i c).2 ≠ (applyInStore (applyInStore st i c).1 i c).2 ∧
    (applyInStore (applyInStore st i c).1 i c).1.bufs.getD (applyInStore st i c).2 [] =
      (applyInStore (applyInStore st i c).1 i c).1.bufs.getD
        (applyInStore (applyInStore st i c).1 i c).2 [] := by
  constructor
  · rw [applyInStore_fresh, applyInStore_fresh, applyInStore_len]
    omega
  · rw [applyInStore_out (applyInStore st i c).1 i c]
    rw [applyInStore_frame st i c h]
    rw [applyInStore_frame (applyInStore st i c).1 i c
      (by rw [applyInStore_fresh, applyInStore_len]; omega)]
    rw [applyInStore_out st i c]

/-- Witness for C6 on a one-buffer store. -/
theorem claim_filter_determinism_witness :
    (applyInStore ⟨[[1]]⟩ 0 ⟨[1], [1]⟩).2
        ≠ (applyInStore (applyInStore ⟨[[1]]⟩ 0 ⟨[1], [1]⟩).1 0 ⟨[1], [1]⟩).2 ∧
    (applyInStore (applyInStore ⟨[[1]]⟩ 0 ⟨[1], [1]⟩).1 0 ⟨[1], [1]⟩).1.bufs.getD
        (applyInStore ⟨[[1]]⟩ 0 ⟨[1], [1]⟩).2 [] =
      (applyInStore (applyInStore ⟨[[1]]⟩ 0 ⟨[1], [1]⟩).1 0 ⟨[1], [1]⟩).1.bufs.getD
        (applyInStore (applyInStore ⟨[[1]]⟩ 0 ⟨[1], [1]⟩).1 0 ⟨[1], [1]⟩).2 [] :=
  claim_filter_determinism ⟨[[1]]⟩ 0 ⟨[1], [1]⟩ (by simp)

/-- C7: applying a filter never mutates the input: every pre-existing buffer
of the store is unchanged, and the result is a freshly allocated buffer (at
the first unused index) holding the filtered samples. -/
theorem claim_apply_no_mutation (st : Store) (i : Nat) (c : FilterCoefficients)
    (j : Nat) (hj : j < st.bufs.length) :
    (applyInStore st i c).1.bufs.getD j [] = st.bufs.getD j [] ∧
    (applyInStore st i c).2 = st.bufs.length ∧
    (applyInStore st i c).1.bufs.getD (applyInStore st i c).2 [] =
      lfilter c.b c.a (st.bufs.getD i []) :=
  ⟨applyInStore_frame st i c hj, applyInStore_fresh st i c, applyInStore_out st i c⟩

/-- Witness for C7 on a one-buffer store. -/
theorem claim_apply_no_mutation_witness :
    (applyInStore ⟨[[2]]⟩ 0 ⟨[1], [1]⟩).1.bufs.getD 0 [] = [[(2 : ℚ)]].getD 0 [] ∧
    (applyInStore ⟨[[2]]⟩ 0 ⟨[1], [1]⟩).2 = [[(2 : ℚ)]].length ∧
    (applyInStore ⟨[[2]]⟩ 0 ⟨[1], [1]⟩).1.bufs.getD (applyInStore ⟨[[2]]⟩ 0 ⟨[1], [1]⟩).2 [] =
      lfilter [1] [1] ([[(2 : ℚ)]].getD 0 []) :=
  claim_apply_no_mutation ⟨[[2]]⟩ 0 ⟨[1], [1]⟩ 0 (by simp)

/-- C8 counterexample: with an empty buffer and sample rate 0 (all filters
disabled), the pipeline front end proceeds to feature computation with the
empty buffer instead of failing fast with `DecodeUnavailableError`: the code
performs no degenerate-input check. -/
theorem claim_degenerate_fail_fast_counterexample :
    analyze_frontend trivKernel [] 0 (-1) (-1) (-1) (-1) = .ok [] ∧
    analyze_frontend trivKernel [] 0 (-1) (-1) (-1) (-1) ≠
      .error PipelineError.decodeUnavailable := by
  have h : Gen.apply_filters trivKernel [] 0 (-1) (-1) (-1) (-1) = .ok [] :=
    apply_filters_all_off (by decide)
      (by rintro ⟨hx, -⟩; rw [LB_def] at hx; omega)
      (by rintro ⟨hx, -⟩; rw [LB_def] at hx; omega)
  constructor
  · unfold analyze_frontend
    rw [h]
  · unfold analyze_frontend
    rw [h]
    simp

/-- C8 (amended): the pipeline performs no empty-buffer or zero-sample-rate
check at all - `DecodeUnavailableError` is never raised; a degenerate input
flows straight into the filter chain and on to feature computation. -/
theorem claim_no_decode_unavailable_error (K : DesignKernel) (y : SampleBuffer)
    (sr hp lp bl bh : ℤ) :
    analyze_frontend K y sr hp lp bl bh ≠ .error PipelineError.decodeUnavailable := by
  unfold analyze_frontend
  cases Gen.apply_filters K y sr hp lp bl bh <;> simp

/-- C9: the duplicated filter implementations in src/gen.py and src/main.py
are extensionally equal: `butter_filter` and `apply_filters` agree on every
input. -/
theorem claim_gen_main_equivalence :
    (∀ (K : DesignKernel) (data : SampleBuffer) (cutoff : CutoffArg) (fs : ℤ)
        (btype : BType) (order : Nat),
      Gen.butter_filter K data cutoff fs btype order =
        Main.butter_filter K data cutoff fs btype order) ∧
    (∀ (K : DesignKernel) (y : SampleBuffer) (sr hp lp bl bh : ℤ),
      Gen.apply_filters K y sr hp lp bl bh = Main.apply_filters K y sr hp lp bl bh) :=
  ⟨fun _ _ _ _ _ _ => rfl, fun _ _ _ _ _ _ _ => rfl⟩

/-- C10: setting only the band high edge to the disabled sentinel does not
skip the band stage: for bandpass_low > 0 and bandpass_high ≤ 0 the guard
holds (bandpass_high < Nyquist), the designer is invoked with a normalized
high edge ≤ 0, and the chain fails with `InvalidCutoffError`; the band stage
is disabled exactly when bandpass_low itself is at or below 0. -/
theorem claim_band_high_sentinel_not_skipped (K : DesignKernel) (y : SampleBuffer)
    (sr : ℤ) (hsr : 0 < sr) :
    (∀ bl bh : ℤ, 0 < bl → bh ≤ 0 →
      Gen.apply_filters K y sr (-1) (-1) bl bh = .error .invalidCutoff) ∧
    (∀ bl bh : ℤ, bl ≤ 0 →
      Gen.apply_filters K y sr (-1) (-1) bl bh = .ok y) := by
  have hsrq : (0 : ℚ) < (sr : ℚ) := by exact_mod_cast hsr
  constructor
  · intro bl bh hbl hbh
    have hguard : bl > Gen.FILTER_LOWER_BOUND ∧ (bh : ℚ) < (sr : ℚ) / 2 := by
      constructor
      · rw [LB_def]
        exact hbl
      · have hq : (bh : ℚ) ≤ 0 := by exact_mod_cast hbh
        linarith
    rw [apply_filters_band_only (by decide)
        (by rintro ⟨hx, -⟩; rw [LB_def] at hx; omega) hguard,
      butter_band_pair_eq,
      scipy_butter_pair_invalid
        (Or.inr (Or.inr (Or.inl (norm_nonpos hsr (by exact_mod_cast hbh)))))]
  · intro bl bh hbl
    exact apply_filters_all_off (by decide)
      (by rintro ⟨hx, -⟩; rw [LB_def] at hx; omega)
      (by rintro ⟨hx, -⟩; rw [LB_def] at hx; omega)

/-- Witness for C10 at sample rate 22050. -/
theorem claim_band_high_sentinel_not_skipped_witness :
    Gen.apply_filters trivKernel [1] 22050 (-1) (-1) 500 (-1) = .error .invalidCutoff ∧
    Gen.apply_filters trivKernel [1] 22050 (-1) (-1) (-1) 500 = .ok [1] := by
  have H := claim_band_high_sentinel_not_skipped trivKernel [1] 22050 (by decide)
  exact ⟨H.1 500 (-1) (by decide) (by decide), H.2 (-1) 500 (by decide)⟩

end AudioVis
